import Mathlib

/-!
Verification of the OKX trading client (REST protocol client, order lifecycle
manager, private websocket breaker, portfolio snapshot) against its
natural-language specification.  Python source functions are shallowly
embedded as executable Lean definitions; floats are modelled as exact
rationals, JSON dicts as small structures with `""`/`0` defaults mirroring
the `or`-defaulting in the source, and the SQLite key-value store as an
association list.

The file is organised as: all definitions (by source component), then all
lemmas and claim theorems.
-/

/-! # Definitions -/

/-! ## Key-value store model (`data/store.py`)

`set_kv` upserts, `get_kv` returns the stored string or `None`, `del_kv`
deletes, `get_kv_float` parses the stored value as a float.  Values written
by the code are either literal strings (flags, client order ids) or numbers
rendered with `str(...)` and parsed back with `float(...)` — an exact round
trip in Python — so a stored value is modelled as either a string or an
exact rational. -/

inductive Val where
  | s (str : String)
  | num (q : ℚ)
deriving DecidableEq

def KV := List (String × Val)

instance : DecidableEq KV := by unfold KV; infer_instance

def lookupKV : KV → String → Option Val
  | [], _ => none
  | (k, v) :: rest, key => if k = key then some v else lookupKV rest key

def delKV : KV → String → KV
  | [], _ => []
  | (k, v) :: rest, key => if k = key then delKV rest key else (k, v) :: delKV rest key

def setKV (kv : KV) (k : String) (v : Val) : KV :=
  (k, v) :: delKV kv k

def getKVFloat (kv : KV) (k : String) : Option ℚ :=
  match lookupKV kv k with
  | some (.num q) => some q
  | _ => none

/-- Python truthiness of a value returned by `get_kv`: `None` and `""` are
falsy, every other stored value is truthy (a stored number renders as a
non-empty string). -/
def valTruthy : Option Val → Bool
  | none => false
  | some (.s str) => str ≠ ""
  | some (.num _) => true

/-- `get_kv(k) == "1"`: string comparison against the literal `"1"`. -/
def valIsOne : Option Val → Bool
  | some (.s str) => str = "1"
  | _ => false

/-! ## C1 — response classification (`okx_rest.py`, `OKXRest._request`)

After the HTTP call, `_request` raises on `status_code >= 400`, then on a
top-level envelope `code != "0"`, and finally — for paths under
`/api/v5/trade/` — on a first data row whose `sCode` (defaulted to `"0"`
when absent/empty, via `str(rows[0].get("sCode") or "0")`) differs from
`"0"`.  Only then is the response returned as success. -/

structure ApiRow where
  sCode : String
  sMsg : String
deriving DecidableEq

structure ApiResponse where
  statusCode : Nat
  code : String
  msg : String
  data : List ApiRow
deriving DecidableEq

inductive RequestError where
  | httpError (status : Nat)
  | apiError (code msg : String)
  | tradeOpFailed (sCode sMsg : String)
deriving DecidableEq

def classifyResponse (path : String) (r : ApiResponse) : Except RequestError ApiResponse :=
  if 400 ≤ r.statusCode then .error (.httpError r.statusCode)
  else if r.code ≠ "0" then .error (.apiError r.code r.msg)
  else if "/api/v5/trade/".data.isPrefixOf path.data then
    match r.data with
    | [] => .ok r
    | row :: _ =>
      let sCode := if row.sCode = "" then "0" else row.sCode
      if sCode ≠ "0" then .error (.tradeOpFailed sCode row.sMsg) else .ok r
  else .ok r

/-! ## C3 — request signing (`okx_rest.py`, `OKXRest._sign` / `_request`)

`_sign` HMAC-signs the prehash `ts + method.upper() + request_path + body`;
`_request` builds `request_path = path + ("?" + query if query else "")`
where `query` is the url-encoded parameter string.  The signature is
`base64(hmac_sha256(secret, prehash))`, a function of the prehash alone, so
distinct prehashes are exactly distinct signing inputs. -/

def signPrehash (ts method requestPath body : String) : String :=
  ts ++ method.toUpper ++ requestPath ++ body

def requestPathWithQuery (path query : String) : String :=
  path ++ (if query = "" then "" else "?" ++ query)

/-! ## C7 — margin gate (`order_manager.py`, `OrderManager._margin_gate`)

Blocks when available balance is non-positive; with a known positive
contract value, blocks iff `last_px * ct_val * sz / leverage` exceeds
`avail * buffer_ratio` (strictly); with unknown/non-positive contract value
falls back to a minimum-available check.  A non-positive configured
leverage is replaced by 1. -/

def marginGate (availUsdt leverage : ℚ) (ctVal : Option ℚ)
    (minAvailUsdt bufferRatio lastPx sz : ℚ) : Bool :=
  if availUsdt ≤ 0 then false
  else
    let lev := if leverage ≤ 0 then (1 : ℚ) else leverage
    match ctVal with
    | none => if availUsdt < minAvailUsdt then false else true
    | some cv =>
      if cv ≤ 0 then
        (if availUsdt < minAvailUsdt then false else true)
      else
        let notional := lastPx * cv * sz
        let reqMargin := notional / lev
        if reqMargin > availUsdt * bufferRatio then false else true

/-! ## C8 — flooring to a step (`okx_rest.py`, `OKXRest._floor_to_step`)

`Decimal.to_integral_value(rounding=ROUND_DOWN)` truncates toward zero, so
the quotient `x / step` is truncated, not floored; for non-negative
quotients the two agree. -/

def truncQ (q : ℚ) : ℤ := if 0 ≤ q then ⌊q⌋ else ⌈q⌉

def floorToStep (x step : ℚ) : ℚ :=
  if step ≤ 0 then x
  else (truncQ (x / step) : ℚ) * step

/-! ## C10 — client order id (`order_manager.py`, `make_cl_ord_id`)

`make_cl_ord_id(k) = "Q" + sha1(k.encode("utf-8")).hexdigest()[:20]
+ str(int(time.time()*1000) % 100000).zfill(5)`.  SHA-1 is embedded in
full (FIPS 180-1) over `Nat` words reduced mod 2^32; the UTF-8 encoder
mirrors `str.encode("utf-8")` on unicode scalars. -/

def utf8Bytes (c : Char) : List Nat :=
  let n := c.toNat
  if n < 0x80 then [n]
  else if n < 0x800 then [0xC0 + n / 0x40, 0x80 + n % 0x40]
  else if n < 0x10000 then [0xE0 + n / 0x1000, 0x80 + (n / 0x40) % 0x40, 0x80 + n % 0x40]
  else [0xF0 + n / 0x40000, 0x80 + (n / 0x1000) % 0x40, 0x80 + (n / 0x40) % 0x40, 0x80 + n % 0x40]

def strUtf8 (s : String) : List Nat :=
  (s.data.map utf8Bytes).flatten

def w32 (n : Nat) : Nat := n % 4294967296

def rotl32 (k x : Nat) : Nat := ((x <<< k) % 4294967296) ||| (x >>> (32 - k))

def sha1F (t b c d : Nat) : Nat :=
  if t < 20 then (b &&& c) ||| ((b ^^^ 0xFFFFFFFF) &&& d)
  else if t < 40 then b ^^^ c ^^^ d
  else if t < 60 then (b &&& c) ||| (b &&& d) ||| (c &&& d)
  else b ^^^ c ^^^ d

def sha1K (t : Nat) : Nat :=
  if t < 20 then 0x5A827999 else if t < 40 then 0x6ED9EBA1
  else if t < 60 then 0x8F1BBCDC else 0xCA62C1D6

def sha1Pad (msg : List Nat) : List Nat :=
  let len := msg.length
  let bitLen := 8 * len
  msg ++ [0x80] ++ List.replicate ((119 - len % 64) % 64) 0 ++
    [bitLen / 2^56 % 256, bitLen / 2^48 % 256, bitLen / 2^40 % 256, bitLen / 2^32 % 256,
     bitLen / 2^24 % 256, bitLen / 2^16 % 256, bitLen / 2^8 % 256, bitLen % 256]

def bytesToWords : List Nat → List Nat
  | b0 :: b1 :: b2 :: b3 :: rest => (b0 * 2^24 + b1 * 2^16 + b2 * 2^8 + b3) :: bytesToWords rest
  | _ => []

def sha1Blocks : Nat → List Nat → List (List Nat)
  | 0, _ => []
  | n+1, l => bytesToWords (l.take 64) :: sha1Blocks n (l.drop 64)

def extendWords : List Nat → Nat → List Nat
  | w, 0 => w
  | w, n+1 =>
    extendWords (w ++ [rotl32 1 ((w.getD (w.length - 3) 0) ^^^ (w.getD (w.length - 8) 0) ^^^
      (w.getD (w.length - 14) 0) ^^^ (w.getD (w.length - 16) 0))]) n

def sha1Round (w : List Nat) (t : Nat) (s : Nat × Nat × Nat × Nat × Nat) :
    Nat × Nat × Nat × Nat × Nat :=
  let (a, b, c, d, e) := s
  let temp := w32 (rotl32 5 a + sha1F t b c d + e + sha1K t + w.getD t 0)
  (temp, a, rotl32 30 b, c, d)

def sha1RoundsFrom (w : List Nat) : Nat → Nat → (Nat × Nat × Nat × Nat × Nat) →
    Nat × Nat × Nat × Nat × Nat
  | _, 0, s => s
  | t, n+1, s => sha1RoundsFrom w (t+1) n (sha1Round w t s)

def sha1Compress (h : Nat × Nat × Nat × Nat × Nat) (block : List Nat) :
    Nat × Nat × Nat × Nat × Nat :=
  let wExt := extendWords block 64
  let (h0, h1, h2, h3, h4) := h
  let (a, b, c, d, e) := sha1RoundsFrom wExt 0 80 (h0, h1, h2, h3, h4)
  (w32 (h0 + a), w32 (h1 + b), w32 (h2 + c), w32 (h3 + d), w32 (h4 + e))

def sha1Words (msg : List Nat) : Nat × Nat × Nat × Nat × Nat :=
  let padded := sha1Pad msg
  (sha1Blocks (padded.length / 64) padded).foldl sha1Compress
    (0x67452301, 0xEFCDAB89, 0x98BADCFE, 0x10325476, 0xC3D2E1F0)

def wordHex8 (w : Nat) : List Char :=
  [Nat.digitChar (w / 16^7 % 16), Nat.digitChar (w / 16^6 % 16),
   Nat.digitChar (w / 16^5 % 16), Nat.digitChar (w / 16^4 % 16),
   Nat.digitChar (w / 16^3 % 16), Nat.digitChar (w / 16^2 % 16),
   Nat.digitChar (w / 16 % 16), Nat.digitChar (w % 16)]

/-- `hashlib.sha1(...).hexdigest()` as a list of characters. -/
def sha1HexChars (msg : List Nat) : List Char :=
  match sha1Words msg with
  | (h0, h1, h2, h3, h4) =>
    wordHex8 h0 ++ wordHex8 h1 ++ wordHex8 h2 ++ wordHex8 h3 ++ wordHex8 h4

/-- Decimal rendering of a natural number, as `str(n)` for `n ≥ 0`. -/
def natDecimalChars (n : Nat) : List Char :=
  if n = 0 then ['0'] else ((Nat.digits 10 n).map Nat.digitChar).reverse

/-- Python `str.zfill`: left-pad with `'0'` to the given width. -/
def zfillChars (l : List Char) (width : Nat) : List Char :=
  List.replicate (width - l.length) '0' ++ l

/-- `make_cl_ord_id` with the wall-clock milliseconds made explicit. -/
def makeClOrdId (idempotencyKey : String) (nowMs : Nat) : String :=
  ⟨'Q' :: ((sha1HexChars (strUtf8 idempotencyKey)).take 20 ++
    zfillChars (natDecimalChars (nowMs % 100000)) 5)⟩

/-- Lowercase-hex digit predicate (characters produced by `hexdigest()`). -/
def isHexLowerDigit (c : Char) : Bool :=
  c.isDigit || ('a' ≤ c && c ≤ 'f')

/-! ## C5 — exhaustive order lookup (`okx_rest.py`,
`OKXRest.get_order_anywhere` / `_search_history_paged`)

`get_order_anywhere` first queries the live-order endpoint; on an exception
whose text does not contain the not-found business code `51603` it
re-raises; otherwise it searches `/trade/orders-history` then
`/trade/orders-history-archive`, each page matched by `clOrdId`, at most 10
pages each, following the `after = rows[-1]["ordId"]` cursor and stopping
on an empty page or a missing cursor.  The environment supplies the
successive page responses of each endpoint as a function of the request
index. -/

/-- Python's `needle in haystack` substring test, over character lists. -/
def containsSub (needle : List Char) : List Char → Bool
  | [] => needle.isEmpty
  | c :: rest => needle.isPrefixOf (c :: rest) || containsSub needle rest

structure OrderRow where
  clOrdId : String
  ordId : String
deriving DecidableEq

structure LookupEnv where
  direct : Except String (List OrderRow)
  historyPages : Nat → List OrderRow
  archivePages : Nat → List OrderRow

def searchHistoryPaged (pages : Nat → List OrderRow) (clOrdId : String) :
    Nat → Nat → Option OrderRow
  | _, 0 => none
  | i, fuel+1 =>
    let rows := pages i
    match rows.find? (fun od => od.clOrdId == clOrdId) with
    | some od => some od
    | none =>
      if rows.isEmpty then none
      else
        match rows.getLast? with
        | none => none
        | some last =>
          if last.ordId = "" then none
          else searchHistoryPaged pages clOrdId (i+1) fuel

inductive LookupError where
  | valueError
  | raised (msg : String)
  | notFound
deriving DecidableEq

def getOrderAnywhere (env : LookupEnv) (instId clOrdId : String) :
    Except LookupError (List OrderRow) :=
  if instId = "" ∨ clOrdId = "" then .error .valueError
  else
    match env.direct with
    | .ok rows => .ok rows
    | .error e =>
      if ¬ (containsSub "51603".data e.data) then .error (.raised e)
      else
        match searchHistoryPaged env.historyPages clOrdId 0 10 with
        | some od => .ok [od]
        | none =>
          match searchHistoryPaged env.archivePages clOrdId 0 10 with
          | some od => .ok [od]
          | none => .error .notFound

/-! ## C6 — private websocket breaker (`okx_ws_private.py`, `OKXPrivateWS`)

`_handle_message` processes `login` events (success resets the failure
counter, authenticates and subscribes; failure increments the counter and
either disables the stream at the threshold or closes for a reconnect) and
`error` events (a credential/region-mismatch code or an "API key" message
increments the counter before the same threshold check).  `_connect_once`
resets the per-connection flags; `_run_loop` reconnects until stopped or
disabled; `start` refuses to run once disabled. -/

structure WSState where
  loginFailures : Nat
  disabled : Bool
  connected : Bool
  authed : Bool
  subscribed : Bool
  lastError : String
deriving DecidableEq

structure WSMsg where
  event : String
  code : String
  msg : String
deriving DecidableEq

/-- Python `str.lower()` restricted to ASCII (event names and codes are
ASCII). -/
def strToLower (s : String) : String := ⟨s.data.map Char.toLower⟩

def wsDisable (st : WSState) (reason : String) : WSState :=
  { st with disabled := true, lastError := reason }

/-- `self._ws.close()`: the `_on_close` callback clears the
connected/authenticated flags. -/
def wsClose (st : WSState) : WSState :=
  { st with connected := false, authed := false }

def credentialErrorCodes : List String := ["60031", "60032", "50119", "50101"]

def handleMessage (maxLoginFailures : Nat) (st : WSState) (m : WSMsg) : WSState :=
  let ev := strToLower m.event
  if ev = "login" then
    if m.code = "0" then
      { st with authed := true, loginFailures := 0, subscribed := true }
    else
      let st' := { st with loginFailures := st.loginFailures + 1, lastError := "login failed code=" ++ m.code ++ " msg=" ++ m.msg }
      if maxLoginFailures ≤ st'.loginFailures then wsDisable st' st'.lastError
      else wsClose st'
  else if ev = "error" then
    let st' :=
      if m.code ∈ credentialErrorCodes ∨ containsSub "API key".data m.msg.data then
        { st with loginFailures := st.loginFailures + 1, lastError := "event error code=" ++ m.code ++ " msg=" ++ m.msg }
      else { st with lastError := "event error code=" ++ m.code ++ " msg=" ++ m.msg }
    if maxLoginFailures ≤ st'.loginFailures then wsDisable st' st'.lastError
    else wsClose st'
  else st

/-- `_connect_once` lines 179–181: per-connection flags reset before a new
`run_forever`; the failure counter is untouched. -/
def resetConn (st : WSState) : WSState :=
  { st with connected := false, authed := false, subscribed := false }

/-- One `_connect_once` call: reset flags, connection opens, then the
received messages are handled in order. -/
def connectOnce (maxLoginFailures : Nat) (st : WSState) (msgs : List WSMsg) : WSState :=
  msgs.foldl (handleMessage maxLoginFailures) { resetConn st with connected := true }

/-- `_run_loop`: returns the final state and the number of connection
attempts made; it checks `disabled` before each attempt and right after
each attempt returns. -/
def runLoop (maxLoginFailures : Nat) : WSState → List (List WSMsg) → WSState × Nat
  | st, [] => (st, 0)
  | st, s :: rest =>
    if st.disabled then (st, 0)
    else
      let st' := connectOnce maxLoginFailures st s
      if st'.disabled then (st', 1)
      else
        let p := runLoop maxLoginFailures st' rest
        (p.1, p.2 + 1)

/-- `start()`: whether a run loop is spawned (it refuses when disabled). -/
def startsLoop (st : WSState) : Bool := !st.disabled

/-! ## C9 — portfolio refresh (`execution/portfolio.py`, `Portfolio`)

`_ws_fresh` checks the age of the stream heartbeat key;
`_refresh_account` takes equity and available balance from the
stream-pushed keys when fresh, falling back to a REST pull *per field*
when a key is absent; `_refresh_pos` uses the stream position snapshot
(new two-sided keys, then the legacy one-sided keys) when fresh, else a
REST positions pull.  REST results are supplied by the environment. -/

def wsFresh (kv : KV) (now maxAgeSec : ℚ) : Bool :=
  match getKVFloat kv "ws_private:last_uptime" with
  | none => false
  | some ts => now - ts ≤ maxAgeSec

structure AccountRest where
  equityUsd : ℚ
  availUsdt : ℚ
deriving DecidableEq

def refreshAccount (kv : KV) (now : ℚ) (rest : AccountRest) : ℚ × ℚ :=
  if wsFresh kv now 5 then
    let wsEq := getKVFloat kv "ws:equity_usd"
    let wsAv := getKVFloat kv "ws:avail_usdt"
    ((match wsEq with | some q => q | none => rest.equityUsd),
     (match wsAv with | some q => q | none => rest.availUsdt))
  else (rest.equityUsd, rest.availUsdt)

def refreshPos (kv : KV) (now : ℚ) (restLong restShort : ℚ) (instId : String) : ℚ × ℚ :=
  if instId = "" then (0, 0)
  else if wsFresh kv now 5 then
    let pl := getKVFloat kv "ws:pos_long"
    let ps := getKVFloat kv "ws:pos_short"
    if pl.isSome ∨ ps.isSome then (pl.getD 0, ps.getD 0)
    else
      let hasPos := lookupKV kv "ws:has_pos"
      let side := lookupKV kv "ws:pos_side"
      let sz := (getKVFloat kv "ws:pos_sz").getD 0
      if valIsOne hasPos ∧ (side = some (.s "long") ∨ side = some (.s "short")) then
        ((if side = some (.s "long") then sz else 0),
         (if side = some (.s "short") then sz else 0))
      else (restLong, restShort)
  else (restLong, restShort)

/-! ## Order lifecycle manager (`execution/order_manager.py`, for C2 and C4)

`on_signal` (C2) runs the admission gates in source order and, when all
pass, persists the pending markers *before* calling
`place_market_with_tp_sl`; a submission exception cleans the markers up and
marks the key done.  `housekeep` (C4) resolves a timed-out pending order
via the exhaustive lookup and attaches TP/SL through
`_after_fill_set_tp_sl`, which is guarded by the one-shot
`tp_sl_set:<key>` flag.  External effects (exchange calls, wall clock,
config) are supplied by environment records; the list of
`place_market_with_tp_sl` / `place_tp_sl_algo` invocations is returned
alongside the updated store. -/

def pendingKey (idem : String) : String := "pending:" ++ idem ++ ":clOrdId"

def pendingTsKey (idem : String) : String := "pending:" ++ idem ++ ":ts"

def doneKey (idem : String) : String := "done:" ++ idem

def tpslKey (idem : String) : String := "tp_sl_set:" ++ idem

/-- `OrderManager._cleanup_pending` (deletions in source order). -/
def cleanupPending (kv : KV) (idem : String) : KV :=
  delKV (delKV (delKV kv "pending_current_idem") (pendingKey idem)) (pendingTsKey idem)

/-- `OKXRest.calc_tp_sl` with the configured percentages passed in. -/
def calcTpSl (entryPx : ℚ) (side : String) (tpPct slPct : ℚ) : ℚ × ℚ :=
  if entryPx ≤ 0 then (0, 0)
  else if strToLower side = "buy" then
    (entryPx * (1 + tpPct), entryPx * (1 - slPct))
  else (entryPx * (1 - tpPct), entryPx * (1 + slPct))

structure Signal where
  action : String
  idempotencyKey : String
  reason : String
deriving DecidableEq

/-- A call to `place_market_with_tp_sl` with the arguments `on_signal`
passes. -/
structure Submission where
  instId : String
  tdMode : String
  side : String
  posSide : String
  sz : ℚ
  lastPx : ℚ
  clOrdId : String
deriving DecidableEq

/-- Configuration, portfolio state, wall clock and exchange outcomes read
by one `on_signal` call. -/
structure SignalEnv where
  now : ℚ
  nowMs : Nat
  rejectCooldownSec : ℚ
  cooldownSec : ℚ
  instId : String
  tdMode : String
  maxPositions : Int
  posLong : ℚ
  posShort : ℚ
  calcSizeByRisk : Option ℚ
  availUsdt : ℚ
  leverage : ℚ
  ctVal : Option ℚ
  minAvailUsdt : ℚ
  marginBufferRatio : ℚ
  placeOk : Bool
deriving DecidableEq

/-- `OrderManager.on_signal`.  `barClose` is `_bar_close(bar)`;
`calcSizeByRisk = none` models `calc_size_by_risk` raising (caught and
logged); `placeOk = false` models `place_market_with_tp_sl` raising.
Returns the updated store and the submissions issued. -/
def pendingWrites (kv : KV) (idem clOrdId : String) (now : ℚ) : KV :=
  setKV (setKV (setKV kv "pending_current_idem" (.s idem))
    (pendingKey idem) (.s clOrdId)) (pendingTsKey idem) (.num now)

def onSignal (env : SignalEnv) (kv : KV) (sig : Signal) (barClose : ℚ) :
    KV × List Submission :=
  if ("OPEN".data.isPrefixOf sig.action.data) = false then (kv, [])
  else if sig.idempotencyKey = "" then (kv, [])
  else if valIsOne (lookupKV kv (doneKey sig.idempotencyKey)) then (kv, [])
  else if valTruthy (lookupKV kv (pendingKey sig.idempotencyKey)) then (kv, [])
  else if env.rejectCooldownSec > 0 ∧
      env.now - (getKVFloat kv "last_reject_ts").getD 0 < env.rejectCooldownSec then (kv, [])
  else if env.cooldownSec > 0 ∧
      env.now - (getKVFloat kv "last_trade_ts").getD 0 < env.cooldownSec then (kv, [])
  else if env.instId = "" then (kv, [])
  else if barClose ≤ 0 then (kv, [])
  else if (sig.action == "OPEN_LONG" || sig.action == "OPEN_SHORT") = false then (kv, [])
  else if env.maxPositions ≤ 1 ∧ sig.action = "OPEN_LONG" ∧ env.posShort > 0 then (kv, [])
  else if env.maxPositions ≤ 1 ∧ sig.action = "OPEN_SHORT" ∧ env.posLong > 0 then (kv, [])
  else
    match env.calcSizeByRisk with
    | none => (kv, [])
    | some sz =>
      if sz ≤ 0 then (kv, [])
      else if marginGate env.availUsdt env.leverage env.ctVal
          env.minAvailUsdt env.marginBufferRatio barClose sz = false then
        (setKV (setKV kv "last_reject_ts" (.num env.now))
          (doneKey sig.idempotencyKey) (.s "1"), [])
      else if env.placeOk then
        (setKV (pendingWrites kv sig.idempotencyKey
            (makeClOrdId sig.idempotencyKey env.nowMs) env.now)
          "last_trade_ts" (.num env.now),
         [⟨env.instId, env.tdMode,
           (if sig.action = "OPEN_LONG" then "buy" else "sell"),
           (if sig.action = "OPEN_LONG" then "long" else "short"), sz, barClose,
           makeClOrdId sig.idempotencyKey env.nowMs⟩])
      else
        (setKV (setKV (cleanupPending (pendingWrites kv sig.idempotencyKey
              (makeClOrdId sig.idempotencyKey env.nowMs) env.now) sig.idempotencyKey)
            "last_reject_ts" (.num env.now)) (doneKey sig.idempotencyKey) (.s "1"),
         [⟨env.instId, env.tdMode,
           (if sig.action = "OPEN_LONG" then "buy" else "sell"),
           (if sig.action = "OPEN_LONG" then "long" else "short"), sz, barClose,
           makeClOrdId sig.idempotencyKey env.nowMs⟩])

/-- One exchange-reported order row, as read by housekeeping
(`str(... or "")` / `float(... or 0.0)` defaults applied). -/
structure OrderInfo where
  state : String
  accFillSz : ℚ
  avgPx : ℚ
  lastPx : ℚ
  px : ℚ
  posSide : String
  side : String
deriving DecidableEq

/-- A call to `place_tp_sl_algo` with the arguments
`_after_fill_set_tp_sl` passes. -/
structure AlgoCall where
  instId : String
  closeSide : String
  sz : ℚ
  tpTrigger : ℚ
  slTrigger : ℚ
  posSide : String
  clOrdId : String
deriving DecidableEq

/-- Configuration, wall clock and exchange outcomes read by one
`housekeep` pass. -/
structure HkEnv where
  now : ℚ
  orderTimeoutSec : ℚ
  cancelOnTimeout : Bool
  instId : String
  tdMode : String
  tpPct : ℚ
  slPct : ℚ
  queryResult : Except Unit OrderInfo
  algoOk : Bool

/-- `OrderManager._after_fill_set_tp_sl`.  Returns the updated store and
the `place_tp_sl_algo` calls issued (an exception from the algo call —
`algoOk = false` — is caught, so the one-shot flag is written only after a
successful call). -/
def afterFillSetTpSl (env : HkEnv) (kv : KV) (idem clOrdId : String)
    (info : OrderInfo) (forceSz : Option ℚ) : KV × List AlgoCall :=
  if valIsOne (lookupKV kv (tpslKey idem)) then (kv, [])
  else
    let avgPx0 := info.avgPx
    let avgPx := if avgPx0 ≤ 0 then (if info.lastPx = 0 then info.px else info.lastPx)
      else avgPx0
    let sz := match forceSz with | some s => s | none => info.accFillSz
    if sz ≤ 0 ∨ avgPx ≤ 0 then (kv, [])
    else
      let posSide0 := strToLower info.posSide
      let posSide := if posSide0 = "long" ∨ posSide0 = "short" then posSide0
        else (if strToLower info.side = "buy" then "long" else "short")
      let calcSide := if posSide = "long" then "buy" else "sell"
      let tpsl := calcTpSl avgPx calcSide env.tpPct env.slPct
      let closeSide := if posSide = "long" then "sell" else "buy"
      let call : AlgoCall :=
        ⟨env.instId, closeSide, sz, tpsl.1, tpsl.2, posSide, "TPSL_" ++ clOrdId⟩
      if env.algoOk then (setKV kv (tpslKey idem) (.s "1"), [call])
      else (kv, [call])

/-- `OrderManager.housekeep`.  Returns the updated store and the
`place_tp_sl_algo` calls issued this pass.  The keys
`pending_current_idem` / `pending:<k>:clOrdId` are only ever written as
strings (by `on_signal`), so a numeric value there is unreachable and
modelled as a no-op pass. -/
def housekeep (env : HkEnv) (kv : KV) : KV × List AlgoCall :=
  match lookupKV kv "pending_current_idem" with
  | some (.s idem) =>
    if idem = "" then (kv, [])
    else if valIsOne (lookupKV kv (doneKey idem)) then (cleanupPending kv idem, [])
    else
      match lookupKV kv (pendingKey idem) with
      | some (.s cl) =>
        if cl = "" then (cleanupPending kv idem, [])
        else
          let ts := (getKVFloat kv (pendingTsKey idem)).getD 0
          if ts ≤ 0 then (kv, [])
          else if env.now - ts < env.orderTimeoutSec then (kv, [])
          else
            match env.queryResult with
            | .error _ =>
              (cleanupPending (setKV kv (doneKey idem) (.s "1")) idem, [])
            | .ok info =>
              let state := strToLower info.state
              if state = "filled" ∨ state = "canceled" then
                if state = "filled" then
                  let r := afterFillSetTpSl env kv idem cl info none
                  (cleanupPending (setKV r.1 (doneKey idem) (.s "1")) idem, r.2)
                else (cleanupPending (setKV kv (doneKey idem) (.s "1")) idem, [])
              else if state = "partially_filled" then
                let r := afterFillSetTpSl env kv idem cl info (some info.accFillSz)
                (cleanupPending (setKV r.1 (doneKey idem) (.s "1")) idem, r.2)
              else (kv, [])
      | some (.num _) => (kv, [])
      | none => (cleanupPending kv idem, [])
  | some (.num _) => (kv, [])
  | none => (kv, [])

/-- Algo calls of one pass attributed to a given idempotency key (the pass
works on the recorded `pending_current_idem`). -/
def housekeepIdem (env : HkEnv) (kv : KV) (idem : String) : KV × Nat :=
  let r := housekeep env kv
  (r.1, if lookupKV kv "pending_current_idem" = some (.s idem) then r.2.length else 0)

/-- A sequence of housekeeping passes; counts the `place_tp_sl_algo` calls
attributed to the given key. -/
def housekeepTrace (idem : String) : List HkEnv → KV → KV × Nat
  | [], kv => (kv, 0)
  | e :: rest, kv =>
    let r := housekeepIdem e kv idem
    let r2 := housekeepTrace idem rest r.1
    (r2.1, r.2 + r2.2)

/-! # Lemmas and claim theorems -/

/-! ## Store lemmas -/

theorem lookupKV_delKV (kv : KV) (k k' : String) :
    lookupKV (delKV kv k') k = if k = k' then none else lookupKV kv k := by
  induction kv with
  | nil => simp [delKV, lookupKV, ite_self]
  | cons p rest ih =>
    obtain ⟨pk, pv⟩ := p
    by_cases hp : pk = k'
    · by_cases hk : k = k'
      · subst hk
        simp [delKV, lookupKV, hp, ih]
      · have hkk : k' ≠ k := fun h => hk h.symm
        simp [delKV, lookupKV, hp, hk, hkk, ih]
    · by_cases hpk : pk = k
      · by_cases hk : k = k'
        · exact absurd (hpk.trans hk) hp
        · simp [delKV, lookupKV, hp, hpk, hk]
      · simp [delKV, lookupKV, hp, hpk, ih]

theorem lookupKV_setKV_self (kv : KV) (k : String) (v : Val) :
    lookupKV (setKV kv k v) k = some v := by
  simp [setKV, lookupKV]

theorem lookupKV_setKV_ne (kv : KV) (k k' : String) (v : Val) (h : k ≠ k') :
    lookupKV (setKV kv k' v) k = lookupKV kv k := by
  simp [setKV, lookupKV, Ne.symm h, lookupKV_delKV, h]

/-! ## String lemmas -/

theorem string_data_append (s t : String) : (s ++ t).data = s.data ++ t.data := rfl

theorem string_ne_of_data_ne (s t : String) (h : s.data ≠ t.data) : s ≠ t :=
  fun he => h (by rw [he])

theorem string_eq_of_data_eq (s t : String) (h : s.data = t.data) : s = t :=
  String.ext h

theorem string_data_empty : ("" : String).data = [] := rfl

theorem string_data_qmark : ("?" : String).data = ['?'] := rfl

theorem append_middle_inj {α : Type} (a b x y : List α)
    (h : a ++ x ++ b = a ++ y ++ b) : x = y := by
  rw [List.append_assoc, List.append_assoc] at h
  have h1 := List.append_cancel_left h
  exact List.append_cancel_right h1

/-! ## C1 -/

/-- C1: on a trade-submission endpoint (path under `/api/v5/trade/`), a 2xx
response whose envelope code is the success sentinel `"0"` but whose first
data row carries a sub-status code `sCode ≠ "0"` is classified as an error
by `_request`, never returned as success. -/
theorem claim_C1_trade_subcode_raises (path : String) (r : ApiResponse)
    (row : ApiRow) (rest : List ApiRow)
    (hpath : "/api/v5/trade/".data.isPrefixOf path.data = true)
    (h2xx : 200 ≤ r.statusCode) (h2xx' : r.statusCode < 300)
    (hcode : r.code = "0") (hdata : r.data = row :: rest)
    (hs : row.sCode ≠ "0") (hs' : row.sCode ≠ "") :
    classifyResponse path r = .error (.tradeOpFailed row.sCode row.sMsg) := by
  have hlt : ¬ 400 ≤ r.statusCode := by omega
  simp [classifyResponse, hlt, hcode, hpath, hdata, hs, hs']

theorem claim_C1_witness :
    classifyResponse "/api/v5/trade/order"
      { statusCode := 200, code := "0", msg := "",
        data := [{ sCode := "51008", sMsg := "insufficient balance" }] }
      = .error (.tradeOpFailed "51008" "insufficient balance") :=
  claim_C1_trade_subcode_raises "/api/v5/trade/order" _ _ []
    (by decide) (by decide) (by decide) (by decide) rfl
    (by decide) (by decide)

/-! ## C3 -/

/-- C3: the signature prehash is `timestamp ++ uppercased method ++
request path with query ++ body`; for two requests identical except for
their (encoded) query strings, the prehash strings differ, so the HMAC
signature — a function of the prehash — is computed over different inputs.
-/
theorem claim_C3_query_changes_prehash (ts method path body q₁ q₂ : String)
    (hq : q₁ ≠ q₂) :
    signPrehash ts method (requestPathWithQuery path q₁) body ≠
    signPrehash ts method (requestPathWithQuery path q₂) body := by
  intro h
  apply hq
  -- reduce to the request paths being equal
  have hpath : requestPathWithQuery path q₁ = requestPathWithQuery path q₂ := by
    have hd := congrArg String.data h
    simp only [signPrehash, string_data_append] at hd
    have := append_middle_inj (ts.data ++ method.toUpper.data) body.data
      (requestPathWithQuery path q₁).data (requestPathWithQuery path q₂).data
      (by simpa [List.append_assoc] using hd)
    exact string_eq_of_data_eq _ _ this
  -- and from equal request paths to equal queries
  have hd := congrArg String.data hpath
  simp only [requestPathWithQuery, string_data_append] at hd
  have hq12 : (if q₁ = "" then "" else "?" ++ q₁).data
      = (if q₂ = "" then "" else "?" ++ q₂).data :=
    List.append_cancel_left hd
  by_cases h1 : q₁ = "" <;> by_cases h2 : q₂ = ""
  · rw [h1, h2]
  · exfalso
    rw [if_pos h1, if_neg h2] at hq12
    simp [string_data_append, string_data_empty, string_data_qmark] at hq12
  · exfalso
    rw [if_pos h2, if_neg h1] at hq12
    simp [string_data_append, string_data_empty, string_data_qmark] at hq12
  · rw [if_neg h1, if_neg h2] at hq12
    simp only [string_data_append, string_data_qmark, List.singleton_append,
      List.cons.injEq, true_and] at hq12
    exact string_eq_of_data_eq _ _ hq12

theorem claim_C3_witness :
    signPrehash "2024-01-01T00:00:00.000Z" "GET"
        (requestPathWithQuery "/api/v5/trade/order" "instId=BTC-USDT-SWAP") "" ≠
    signPrehash "2024-01-01T00:00:00.000Z" "GET"
        (requestPathWithQuery "/api/v5/trade/order" "instId=ETH-USDT-SWAP") "" :=
  claim_C3_query_changes_prehash _ _ _ _ _ _ (by decide)

/-! ## C7 -/

/-- C7: with positive available balance, a known positive contract value and
positive leverage, the margin gate passes iff the required margin
`last_px * ct_val * sz / leverage` is at most `avail * buffer_ratio`; the
comparison is non-strict, so the boundary case passes. -/
theorem claim_C7_margin_gate_iff (availUsdt leverage cv minAvailUsdt
    bufferRatio lastPx sz : ℚ)
    (hA : 0 < availUsdt) (hcv : 0 < cv) (hL : 0 < leverage) :
    marginGate availUsdt leverage (some cv) minAvailUsdt bufferRatio lastPx sz
      = true ↔ lastPx * cv * sz / leverage ≤ availUsdt * bufferRatio := by
  unfold marginGate
  have h1 : ¬ availUsdt ≤ 0 := not_le.mpr hA
  have h2 : ¬ leverage ≤ 0 := not_le.mpr hL
  have h3 : ¬ cv ≤ 0 := not_le.mpr hcv
  simp only [h1, if_false, h2, h3, if_true]
  constructor
  · intro h
    by_contra hgt
    simp only [not_le] at hgt
    simp [hgt] at h
  · intro h
    simp [not_lt.mpr h]

/-- Witness for C7: the exact boundary `M = B × r` (here `5 = 10 × 1/2`)
passes the gate. -/
theorem claim_C7_witness :
    marginGate 10 1 (some 1) 5 (1/2) 1 5 = true :=
  (claim_C7_margin_gate_iff 10 1 1 5 (1/2) 1 5
    (by norm_num) (by norm_num) (by norm_num)).mpr (by norm_num)

/-! ## C8 -/

/-- C8 counterexample: `_floor_to_step` truncates the quotient toward zero
(`ROUND_DOWN`), so on the negative input `x = -1/2`, `step = 1` it returns
`0`, which is a multiple of the step but is *greater* than `x` — not the
greatest multiple of `step` that is `≤ x` (that would be `-1`). -/
theorem claim_C8_counterexample :
    floorToStep (-1/2 : ℚ) 1 = 0 ∧ ¬ floorToStep (-1/2 : ℚ) 1 ≤ (-1/2 : ℚ) := by
  have hc : ⌈(-1/2 : ℚ)⌉ = 0 := Int.ceil_eq_iff.mpr (by norm_num)
  have hv : floorToStep (-1/2 : ℚ) 1 = 0 := by
    unfold floorToStep truncQ
    rw [if_neg (by norm_num : ¬ (1 : ℚ) ≤ 0), div_one,
      if_neg (by norm_num : ¬ (0 : ℚ) ≤ (-1/2 : ℚ)), hc]
    norm_num
  refine ⟨hv, ?_⟩
  rw [hv]
  norm_num

/-- C8 (amended): for `step ≤ 0`, `_floor_to_step` returns `x` unchanged;
for `step > 0` and `x ≥ 0` it returns the greatest multiple of `step` that
is `≤ x`.  (For negative `x` it truncates toward zero instead — see the
counterexample.) -/
theorem claim_C8_amended (x step : ℚ) :
    (step ≤ 0 → floorToStep x step = x) ∧
    (0 < step → 0 ≤ x →
      (∃ k : ℤ, floorToStep x step = (k : ℚ) * step) ∧
      floorToStep x step ≤ x ∧
      ∀ k : ℤ, (k : ℚ) * step ≤ x → (k : ℚ) * step ≤ floorToStep x step) := by
  constructor
  · intro h
    unfold floorToStep
    rw [if_pos h]
  · intro hstep hx
    have hns : ¬ step ≤ 0 := not_le.mpr hstep
    have hq : (0 : ℚ) ≤ x / step := div_nonneg hx (le_of_lt hstep)
    have htr : truncQ (x / step) = ⌊x / step⌋ := by
      unfold truncQ
      rw [if_pos hq]
    refine ⟨⟨⌊x / step⌋, ?_⟩, ?_, ?_⟩
    · unfold floorToStep
      rw [if_neg hns, htr]
    · unfold floorToStep
      rw [if_neg hns, htr]
      calc (⌊x / step⌋ : ℚ) * step ≤ (x / step) * step :=
            mul_le_mul_of_nonneg_right (Int.floor_le _) (le_of_lt hstep)
        _ = x := div_mul_cancel₀ x (ne_of_gt hstep)
    · intro k hk
      unfold floorToStep
      rw [if_neg hns, htr]
      have hk' : (k : ℚ) ≤ x / step := (le_div_iff₀ hstep).mpr hk
      have : k ≤ ⌊x / step⌋ := Int.le_floor.mpr hk'
      exact mul_le_mul_of_nonneg_right (by exact_mod_cast this) (le_of_lt hstep)

theorem claim_C8_amended_witness :
    floorToStep (7/2 : ℚ) 1 ≤ (7/2 : ℚ) :=
  ((claim_C8_amended (7/2) 1).2 (by norm_num) (by norm_num)).2.1

/-! ## C10 -/

theorem sha1HexChars_length (msg : List Nat) : (sha1HexChars msg).length = 40 := by
  rcases hw : sha1Words msg with ⟨h0, h1, h2, h3, h4⟩
  simp [sha1HexChars, hw, wordHex8]

theorem digitChar_mod16_isHex (n : Nat) :
    isHexLowerDigit (Nat.digitChar (n % 16)) = true := by
  have h : n % 16 < 16 := Nat.mod_lt _ (by norm_num)
  revert h
  generalize n % 16 = m
  intro h
  interval_cases m <;> decide

theorem wordHex8_hex (w : Nat) : (wordHex8 w).all isHexLowerDigit = true := by
  simp only [wordHex8, List.all_cons, List.all_nil, Bool.and_true,
    digitChar_mod16_isHex, Bool.and_self]

theorem sha1HexChars_hex (msg : List Nat) :
    (sha1HexChars msg).all isHexLowerDigit = true := by
  rcases hw : sha1Words msg with ⟨h0, h1, h2, h3, h4⟩
  simp [sha1HexChars, hw, List.all_append, wordHex8_hex]

theorem digitChar_lt10_isDigit (n : Nat) (h : n < 10) :
    (Nat.digitChar n).isDigit = true := by
  interval_cases n <;> decide

theorem natDecimalChars_digits (n : Nat) :
    (natDecimalChars n).all Char.isDigit = true := by
  unfold natDecimalChars
  split
  · decide
  · rw [List.all_eq_true]
    intro c hc
    rw [List.mem_reverse] at hc
    obtain ⟨d, hd, rfl⟩ := List.mem_map.mp hc
    exact digitChar_lt10_isDigit d (Nat.digits_lt_base (by norm_num) hd)

theorem natDecimalChars_length_le (n : Nat) (h : n < 100000) :
    (natDecimalChars n).length ≤ 5 := by
  unfold natDecimalChars
  split
  · simp
  · rename_i hn
    simp only [List.length_reverse, List.length_map]
    by_contra hlen
    push_neg at hlen
    have h1 : 10 ^ (Nat.digits 10 n).length ≤ 10 * n :=
      Nat.base_pow_length_digits_le 10 n (by norm_num) hn
    have h2 : 10 ^ 6 ≤ 10 ^ (Nat.digits 10 n).length :=
      Nat.pow_le_pow_right (by norm_num) (by omega)
    have h3 := le_trans h2 h1
    norm_num at h3
    omega

theorem zfillChars_length (l : List Char) (w : Nat) (h : l.length ≤ w) :
    (zfillChars l w).length = w := by
  rw [zfillChars, List.length_append, List.length_replicate]
  omega

theorem zfillChars_digits (l : List Char) (w : Nat)
    (h : l.all Char.isDigit = true) :
    (zfillChars l w).all Char.isDigit = true := by
  rw [zfillChars, List.all_append, h]
  simp only [Bool.and_true, List.all_eq_true]
  intro c hc
  rw [List.eq_of_mem_replicate hc]
  decide

/-- C10: `make_cl_ord_id` returns exactly 26 characters — the letter `Q`,
then the first 20 (lowercase-hex) characters of the SHA-1 hex digest of the
idempotency key (a value depending on the key alone), then 5 decimal digits
derived from the call time (`int(time*1000) % 100000`, zero-filled); hence
two calls with the same key agree on their first 21 characters and every
result starts with `Q`. -/
theorem claim_C10_make_cl_ord_id (key : String) (t t' : Nat) :
    (makeClOrdId key t).length = 26 ∧
    (makeClOrdId key t).data.take 21
      = 'Q' :: (sha1HexChars (strUtf8 key)).take 20 ∧
    (makeClOrdId key t).data.take 21 = (makeClOrdId key t').data.take 21 ∧
    (makeClOrdId key t).data.head? = some 'Q' ∧
    ((sha1HexChars (strUtf8 key)).take 20).all isHexLowerDigit = true ∧
    (makeClOrdId key t).data.drop 21
      = zfillChars (natDecimalChars (t % 100000)) 5 ∧
    ((makeClOrdId key t).data.drop 21).length = 5 ∧
    ((makeClOrdId key t).data.drop 21).all Char.isDigit = true := by
  have hhexlen : ((sha1HexChars (strUtf8 key)).take 20).length = 20 := by
    rw [List.length_take, sha1HexChars_length]
    decide
  have hsuflen : ∀ s : Nat, (zfillChars (natDecimalChars (s % 100000)) 5).length = 5 :=
    fun s => zfillChars_length _ _
      (natDecimalChars_length_le _ (Nat.mod_lt _ (by norm_num)))
  have hdata : ∀ s : Nat, (makeClOrdId key s).data
      = 'Q' :: ((sha1HexChars (strUtf8 key)).take 20 ++
          zfillChars (natDecimalChars (s % 100000)) 5) := fun _ => rfl
  have htake : ∀ s : Nat, (makeClOrdId key s).data.take 21
      = 'Q' :: (sha1HexChars (strUtf8 key)).take 20 := by
    intro s
    rw [hdata s]
    rw [show (21 : Nat) = ((sha1HexChars (strUtf8 key)).take 20).length + 1 by
      rw [hhexlen]]
    rw [List.take_succ_cons, List.take_left]
  have hdrop : (makeClOrdId key t).data.drop 21
      = zfillChars (natDecimalChars (t % 100000)) 5 := by
    rw [hdata t]
    rw [show (21 : Nat) = ((sha1HexChars (strUtf8 key)).take 20).length + 1 by
      rw [hhexlen]]
    rw [List.drop_succ_cons, List.drop_left]
  refine ⟨?_, htake t, (htake t).trans (htake t').symm, ?_, ?_, hdrop, ?_, ?_⟩
  · show (makeClOrdId key t).data.length = 26
    rw [hdata t]
    simp [hhexlen, hsuflen t]
  · rw [hdata t]
    rfl
  · rw [List.all_eq_true]
    intro c hc
    exact List.all_eq_true.mp (sha1HexChars_hex (strUtf8 key)) c
      (List.take_subset _ _ hc)
  · rw [hdrop]
    exact hsuflen t
  · rw [hdrop]
    exact zfillChars_digits _ _ (natDecimalChars_digits _)


/-! ## C5 -/

theorem searchHistoryPaged_succ (pages : Nat → List OrderRow) (cl : String)
    (i fuel : Nat) :
    searchHistoryPaged pages cl i (fuel+1) =
      match (pages i).find? (fun od => od.clOrdId == cl) with
      | some od => some od
      | none =>
        if (pages i).isEmpty then none
        else
          match (pages i).getLast? with
          | none => none
          | some last =>
            if last.ordId = "" then none
            else searchHistoryPaged pages cl (i+1) fuel := rfl

theorem searchHistoryPaged_matches (pages : Nat → List OrderRow) (cl : String) :
    ∀ fuel i od, searchHistoryPaged pages cl i fuel = some od → od.clOrdId = cl := by
  intro fuel
  induction fuel with
  | zero =>
    intro i od h
    simp [searchHistoryPaged] at h
  | succ n ih =>
    intro i od h
    rw [searchHistoryPaged_succ] at h
    split at h
    · rename_i od' heq
      cases h
      have hp := List.find?_some heq
      simpa using hp
    · split at h
      · exact absurd h (by simp)
      · split at h
        · exact absurd h (by simp)
        · split at h
          · exact absurd h (by simp)
          · exact ih (i+1) od h

/-- C5: when the direct live-order query fails with the not-found business
code `51603`, `get_order_anywhere` searches order history then archived
history, 10 pages each, matching rows by client order id: any row returned
by the paged search carries the requested `clOrdId`; a history (or, after a
full history miss, an archive) hit is returned as a success envelope; in
particular, when page 1 has no match but carries a cursor and page 2
matches, that row is returned; and the not-found error is raised only when
both bounded searches come up empty. -/
theorem claim_C5_get_order_anywhere (env : LookupEnv) (instId cl e : String)
    (h1 : instId ≠ "") (h2 : cl ≠ "")
    (hdir : env.direct = .error e)
    (h51603 : containsSub "51603".data e.data = true) :
    (∀ fuel i od, searchHistoryPaged env.historyPages cl i fuel = some od →
      od.clOrdId = cl) ∧
    (∀ od, searchHistoryPaged env.historyPages cl 0 10 = some od →
      getOrderAnywhere env instId cl = .ok [od]) ∧
    (∀ od, searchHistoryPaged env.historyPages cl 0 10 = none →
      searchHistoryPaged env.archivePages cl 0 10 = some od →
      getOrderAnywhere env instId cl = .ok [od]) ∧
    (∀ od, (env.historyPages 0).find? (fun r => r.clOrdId == cl) = none →
      (env.historyPages 0).isEmpty = false →
      (∃ last, (env.historyPages 0).getLast? = some last ∧ last.ordId ≠ "") →
      (env.historyPages 1).find? (fun r => r.clOrdId == cl) = some od →
      getOrderAnywhere env instId cl = .ok [od]) ∧
    (getOrderAnywhere env instId cl = .error .notFound →
      searchHistoryPaged env.historyPages cl 0 10 = none ∧
      searchHistoryPaged env.archivePages cl 0 10 = none) := by
  have hids : ¬ (instId = "" ∨ cl = "") := by
    intro h
    cases h with
    | inl h => exact h1 h
    | inr h => exact h2 h
  have hist_step : ∀ od, (env.historyPages 0).find? (fun r => r.clOrdId == cl) = none →
      (env.historyPages 0).isEmpty = false →
      (∃ last, (env.historyPages 0).getLast? = some last ∧ last.ordId ≠ "") →
      (env.historyPages 1).find? (fun r => r.clOrdId == cl) = some od →
      searchHistoryPaged env.historyPages cl 0 10 = some od := by
    intro od hfind0 hemp0 hcursor hfind1
    obtain ⟨last, hlast, hord⟩ := hcursor
    rw [show (10 : Nat) = 9 + 1 from rfl, searchHistoryPaged_succ, hfind0]
    simp only [hemp0, hlast, hord]
    rw [if_neg (by simp)]
    simp only [if_false]
    rw [show (9 : Nat) = 8 + 1 from rfl]
    rw [show (0 : Nat) + 1 = 1 from rfl, searchHistoryPaged_succ, hfind1]
  refine ⟨searchHistoryPaged_matches env.historyPages cl, ?_, ?_, ?_, ?_⟩
  · intro od hs
    simp [getOrderAnywhere, hids, hdir, h51603, hs]
  · intro od hh ha
    simp [getOrderAnywhere, hids, hdir, h51603, hh, ha]
  · intro od hfind0 hemp0 hcursor hfind1
    have hs := hist_step od hfind0 hemp0 hcursor hfind1
    simp [getOrderAnywhere, hids, hdir, h51603, hs]
  · intro hnf
    cases hh : searchHistoryPaged env.historyPages cl 0 10 with
    | some od =>
      exfalso
      simp [getOrderAnywhere, hids, hdir, h51603, hh] at hnf
    | none =>
      cases ha : searchHistoryPaged env.archivePages cl 0 10 with
      | some od =>
        exfalso
        simp [getOrderAnywhere, hids, hdir, h51603, hh, ha] at hnf
      | none => exact ⟨rfl, rfl⟩

theorem claim_C5_witness :
    getOrderAnywhere
      { direct := .error "OKX API error: code=51603 msg=Order does not exist",
        historyPages := fun i =>
          if i = 0 then [{ clOrdId := "other", ordId := "77" }]
          else if i = 1 then [{ clOrdId := "Qtarget", ordId := "78" }]
          else [],
        archivePages := fun _ => [] }
      "BTC-USDT-SWAP" "Qtarget"
      = .ok [{ clOrdId := "Qtarget", ordId := "78" }] :=
  (claim_C5_get_order_anywhere _ "BTC-USDT-SWAP" "Qtarget" _
      (by decide) (by decide) rfl (by decide)).2.2.2.1
    _ (by decide) (by decide) ⟨_, rfl, by decide⟩ (by decide)

/-! ## C6 -/

/-- C6: the private-stream circuit breaker — (1) once disabled, the
reconnect loop makes no further connection attempts and returns
immediately; (2) `start()` refuses to run when disabled; (3) no message can
clear `disabled` (it is terminal); (4) a login-failure event that brings
the counter to the configured maximum disables the stream; (5) the
per-connection reset before a reconnect clears the connected /
authenticated / subscribed flags but preserves the failure counter and the
disabled flag; (6) the failure counter decreases only on a successful
login event, which resets it to zero. -/
theorem claim_C6_login_breaker (mf : Nat) (st : WSState) (m : WSMsg)
    (sessions : List (List WSMsg)) :
    (st.disabled = true → runLoop mf st sessions = (st, 0)) ∧
    (st.disabled = true → startsLoop st = false) ∧
    (st.disabled = true → (handleMessage mf st m).disabled = true) ∧
    (strToLower m.event = "login" → m.code ≠ "0" → mf ≤ st.loginFailures + 1 →
      (handleMessage mf st m).disabled = true) ∧
    ((resetConn st).loginFailures = st.loginFailures ∧
      (resetConn st).connected = false ∧ (resetConn st).authed = false ∧
      (resetConn st).subscribed = false ∧ (resetConn st).disabled = st.disabled) ∧
    ((handleMessage mf st m).loginFailures < st.loginFailures →
      strToLower m.event = "login" ∧ m.code = "0" ∧
      (handleMessage mf st m).loginFailures = 0) := by
  refine ⟨?_, ?_, ?_, ?_, ?_, ?_⟩
  · intro h
    cases sessions with
    | nil => rfl
    | cons s rest => simp [runLoop, h]
  · intro h
    simp [startsLoop, h]
  · intro h
    by_cases he : strToLower m.event = "login"
    · by_cases hc : m.code = "0"
      · simp [handleMessage, he, hc, h]
      · simp only [handleMessage, he, hc, if_true, if_false, ite_true, ite_false]
        split <;> simp [wsDisable, wsClose, h]
    · by_cases hev : strToLower m.event = "error"
      · simp [handleMessage, he, hev, wsDisable, wsClose, apply_ite, ite_self, h]
      · simp [handleMessage, he, hev, h]
  · intro he hc hth
    simp [handleMessage, he, hc, hth, wsDisable]
  · exact ⟨rfl, rfl, rfl, rfl, rfl⟩
  · intro hlt
    by_cases he : strToLower m.event = "login"
    · by_cases hc : m.code = "0"
      · refine ⟨he, hc, ?_⟩
        simp [handleMessage, he, hc]
      · exfalso
        simp only [handleMessage, he, hc, if_true, if_false, ite_true, ite_false] at hlt
        split at hlt <;> simp [wsDisable, wsClose] at hlt
    · by_cases hev : strToLower m.event = "error"
      · exfalso
        have hkey : (handleMessage mf st m).loginFailures = st.loginFailures ∨
            (handleMessage mf st m).loginFailures = st.loginFailures + 1 := by
          by_cases hcred : (m.code ∈ credentialErrorCodes ∨
              containsSub "API key".data m.msg.data = true)
          · by_cases hth : mf ≤ st.loginFailures + 1
            · right
              simp [handleMessage, he, hev, hcred, hth, wsDisable]
            · right
              simp [handleMessage, he, hev, hcred, hth, wsClose]
          · by_cases hth : mf ≤ st.loginFailures
            · left
              simp [handleMessage, he, hev, hcred, hth, wsDisable]
            · left
              simp [handleMessage, he, hev, hcred, hth, wsClose]
        rcases hkey with hk | hk <;> omega
      · exfalso
        simp only [handleMessage, he, hev, if_true, if_false, ite_true, ite_false] at hlt
        omega

/-- Witness for C6: three consecutive login failures with max-failures 3
flip the stream to disabled. -/
theorem claim_C6_witness :
    (handleMessage 3 (handleMessage 3 (handleMessage 3
        ⟨0, false, false, false, false, ""⟩ ⟨"login", "60009", "Login failed."⟩)
        ⟨"login", "60009", "Login failed."⟩) ⟨"login", "60009", "Login failed."⟩).disabled
      = true :=
  (claim_C6_login_breaker 3 _ ⟨"login", "60009", "Login failed."⟩ []).2.2.2.1
    (by decide) (by decide) (by decide)

/-! ## C9 -/

/-- C9 counterexample: with a fresh stream heartbeat, a stream-pushed
equity (`ws:equity_usd = 100`) but no stream-pushed available balance,
`_refresh_account` takes equity from the stream and available balance from
the REST pull (here REST equity `7`, REST avail `3`, giving `(100, 3)`):
one refresh mixes the two sources — the snapshot is neither the all-REST
pair `(7, 3)` nor independent of the REST values. -/
theorem claim_C9_counterexample :
    refreshAccount [("ws_private:last_uptime", .num 1000), ("ws:equity_usd", .num 100)]
      1000 ⟨7, 3⟩ = (100, 3) ∧
    refreshAccount [("ws_private:last_uptime", .num 1000), ("ws:equity_usd", .num 100)]
      1000 ⟨7, 3⟩ ≠ ((7 : ℚ), (3 : ℚ)) ∧
    refreshAccount [("ws_private:last_uptime", .num 1000), ("ws:equity_usd", .num 100)]
      1000 ⟨7, 4⟩
      ≠ refreshAccount [("ws_private:last_uptime", .num 1000), ("ws:equity_usd", .num 100)]
          1000 ⟨7, 3⟩ := by
  refine ⟨?_, ?_, ?_⟩ <;>
    simp [refreshAccount, wsFresh, getKVFloat, lookupKV]

/-- C9 (amended): when the stream snapshot is stale, both account fields
come from REST; when it is fresh, each of equity / available balance is
taken from its own stream key and falls back to REST *individually* when
that key is absent, so a refresh can mix sources if only part of the stream
snapshot is present.  The position pair, by contrast, never mixes: one
`_refresh_pos` either returns the REST pair unchanged or a value
independent of the REST pull. -/
theorem claim_C9_amended (kv : KV) (now : ℚ) (rest : AccountRest)
    (restLong restShort : ℚ) (instId : String) :
    (wsFresh kv now 5 = false →
      refreshAccount kv now rest = (rest.equityUsd, rest.availUsdt)) ∧
    (∀ we wa, getKVFloat kv "ws:equity_usd" = some we →
      getKVFloat kv "ws:avail_usdt" = some wa → wsFresh kv now 5 = true →
      refreshAccount kv now rest = (we, wa)) ∧
    (∀ we, getKVFloat kv "ws:equity_usd" = some we →
      getKVFloat kv "ws:avail_usdt" = none → wsFresh kv now 5 = true →
      refreshAccount kv now rest = (we, rest.availUsdt)) ∧
    (∀ wa, getKVFloat kv "ws:equity_usd" = none →
      getKVFloat kv "ws:avail_usdt" = some wa → wsFresh kv now 5 = true →
      refreshAccount kv now rest = (rest.equityUsd, wa)) ∧
    (refreshPos kv now restLong restShort instId = (restLong, restShort) ∨
      ∀ rL rS : ℚ, refreshPos kv now rL rS instId
        = refreshPos kv now restLong restShort instId) := by
  refine ⟨?_, ?_, ?_, ?_, ?_⟩
  · intro h
    simp [refreshAccount, h]
  · intro we wa hwe hwa h
    simp [refreshAccount, h, hwe, hwa]
  · intro we hwe hwa h
    simp [refreshAccount, h, hwe, hwa]
  · intro wa hwe hwa h
    simp [refreshAccount, h, hwe, hwa]
  · by_cases hinst : instId = ""
    · right
      intro rL rS
      simp [refreshPos, hinst]
    · by_cases hfresh : wsFresh kv now 5
      · by_cases hws : ((getKVFloat kv "ws:pos_long").isSome
            ∨ (getKVFloat kv "ws:pos_short").isSome)
        · right
          intro rL rS
          simp [refreshPos, hinst, hfresh, hws]
        · by_cases hlegacy : (valIsOne (lookupKV kv "ws:has_pos") = true ∧
              (lookupKV kv "ws:pos_side" = some (.s "long") ∨
               lookupKV kv "ws:pos_side" = some (.s "short")))
          · right
            intro rL rS
            simp [refreshPos, hinst, hfresh, hws, hlegacy]
          · left
            simp [refreshPos, hinst, hfresh, hws, hlegacy]
      · left
        simp [refreshPos, hinst, hfresh]

/-- Witness for C9 (amended): a stale snapshot pulls both fields from
REST. -/
theorem claim_C9_amended_witness :
    refreshAccount [] 0 ⟨7, 3⟩ = ((7 : ℚ), (3 : ℚ)) :=
  (claim_C9_amended [] 0 ⟨7, 3⟩ 0 0 "BTC-USDT-SWAP").1 (by rfl)

/-! ## Store-key distinctness -/

theorem strLen_data (s : String) : s.length = s.data.length := rfl

theorem ne_of_head (s t : String) (c₁ c₂ : Char) (h1 : s.data.head? = some c₁)
    (h2 : t.data.head? = some c₂) (hc : c₁ ≠ c₂) : s ≠ t := fun h => by
  rw [h, h2] at h1
  cases h1
  exact hc rfl

theorem pendingKey_length (idem : String) : (pendingKey idem).length = idem.length + 16 := by
  simp only [pendingKey, String.length_append]
  have h1 : ("pending:" : String).length = 8 := rfl
  have h2 : (":clOrdId" : String).length = 8 := rfl
  omega

theorem pendingTsKey_length (idem : String) : (pendingTsKey idem).length = idem.length + 11 := by
  simp only [pendingTsKey, String.length_append]
  have h1 : ("pending:" : String).length = 8 := rfl
  have h2 : (":ts" : String).length = 3 := rfl
  omega

theorem doneKey_length (idem : String) : (doneKey idem).length = idem.length + 5 := by
  simp only [doneKey, String.length_append]
  have h1 : ("done:" : String).length = 5 := rfl
  omega

theorem tpslKey_length (idem : String) : (tpslKey idem).length = idem.length + 10 := by
  simp only [tpslKey, String.length_append]
  have h1 : ("tp_sl_set:" : String).length = 10 := rfl
  omega

theorem pendingKey_ne_lastTradeTs (idem : String) : pendingKey idem ≠ "last_trade_ts" := by
  intro h
  have hlen := congrArg String.length h
  rw [pendingKey_length] at hlen
  have h13 : ("last_trade_ts" : String).length = 13 := rfl
  omega

theorem pendingKey_ne_pendingTsKey (idem : String) : pendingKey idem ≠ pendingTsKey idem := by
  intro h
  have hlen := congrArg String.length h
  rw [pendingKey_length, pendingTsKey_length] at hlen
  omega

theorem doneKey_ne_pci (idem : String) : doneKey idem ≠ "pending_current_idem" :=
  ne_of_head _ _ 'd' 'p' rfl rfl (by decide)

theorem doneKey_ne_pendingKey (idem : String) : doneKey idem ≠ pendingKey idem := by
  intro h
  have hlen := congrArg String.length h
  rw [doneKey_length, pendingKey_length] at hlen
  omega

theorem doneKey_ne_pendingTsKey (idem : String) : doneKey idem ≠ pendingTsKey idem := by
  intro h
  have hlen := congrArg String.length h
  rw [doneKey_length, pendingTsKey_length] at hlen
  omega

theorem tpslKey_ne_pci (idem : String) : tpslKey idem ≠ "pending_current_idem" :=
  ne_of_head _ _ 't' 'p' rfl rfl (by decide)

theorem tpslKey_ne_pendingKey (idem : String) : tpslKey idem ≠ pendingKey idem := by
  intro h
  have hlen := congrArg String.length h
  rw [tpslKey_length, pendingKey_length] at hlen
  omega

theorem tpslKey_ne_pendingTsKey (idem : String) : tpslKey idem ≠ pendingTsKey idem := by
  intro h
  have hlen := congrArg String.length h
  rw [tpslKey_length, pendingTsKey_length] at hlen
  omega

theorem tpslKey_ne_doneKey (idem : String) : tpslKey idem ≠ doneKey idem := by
  intro h
  have hlen := congrArg String.length h
  rw [tpslKey_length, doneKey_length] at hlen
  omega

theorem makeClOrdId_ne_empty (key : String) (t : Nat) : makeClOrdId key t ≠ "" := by
  intro h
  have hd := congrArg String.data h
  simp [makeClOrdId, string_data_empty] at hd

/-! ## C2 -/

theorem lookupKV_pendingWrites_pk (kv : KV) (idem cl : String) (now : ℚ) :
    lookupKV (pendingWrites kv idem cl now) (pendingKey idem) = some (.s cl) := by
  unfold pendingWrites
  rw [lookupKV_setKV_ne _ _ _ _ (pendingKey_ne_pendingTsKey _), lookupKV_setKV_self]

theorem onSignal_marker_noop (env : SignalEnv) (kv : KV) (sig : Signal) (bar : ℚ)
    (h : valIsOne (lookupKV kv (doneKey sig.idempotencyKey)) = true ∨
         valTruthy (lookupKV kv (pendingKey sig.idempotencyKey)) = true) :
    onSignal env kv sig bar = (kv, []) := by
  by_cases h1 : ("OPEN".data.isPrefixOf sig.action.data) = false
  · simp [onSignal, h1]
  · by_cases h2 : sig.idempotencyKey = ""
    · simp [onSignal, h1, h2]
    · by_cases h3 : valIsOne (lookupKV kv (doneKey sig.idempotencyKey)) = true
      · simp [onSignal, h1, h2, h3]
      · have h4 : valTruthy (lookupKV kv (pendingKey sig.idempotencyKey)) = true :=
          h.resolve_left h3
        simp [onSignal, h1, h2, h3, h4]

theorem onSignal_submit_marker (env : SignalEnv) (kv : KV) (sig : Signal) (bar : ℚ)
    (hne : (onSignal env kv sig bar).2 ≠ []) :
    valIsOne (lookupKV (onSignal env kv sig bar).1 (doneKey sig.idempotencyKey)) = true ∨
    valTruthy (lookupKV (onSignal env kv sig bar).1 (pendingKey sig.idempotencyKey)) = true := by
  by_cases h1 : ("OPEN".data.isPrefixOf sig.action.data) = false
  · exact absurd (by simp [onSignal, h1]) hne
  by_cases h2 : sig.idempotencyKey = ""
  · exact absurd (by simp [onSignal, h1, h2]) hne
  by_cases h3 : valIsOne (lookupKV kv (doneKey sig.idempotencyKey)) = true
  · exact absurd (by simp [onSignal, h1, h2, h3]) hne
  by_cases h4 : valTruthy (lookupKV kv (pendingKey sig.idempotencyKey)) = true
  · exact absurd (by simp [onSignal, h1, h2, h3, h4]) hne
  by_cases h5 : env.rejectCooldownSec > 0 ∧
      env.now - (getKVFloat kv "last_reject_ts").getD 0 < env.rejectCooldownSec
  · exact absurd (by simp [onSignal, h1, h2, h3, h4, h5]) hne
  by_cases h6 : env.cooldownSec > 0 ∧
      env.now - (getKVFloat kv "last_trade_ts").getD 0 < env.cooldownSec
  · exact absurd (by simp [onSignal, h1, h2, h3, h4, h5, h6]) hne
  by_cases h7 : env.instId = ""
  · exact absurd (by simp [onSignal, h1, h2, h3, h4, h5, h6, h7]) hne
  by_cases h8 : bar ≤ 0
  · exact absurd (by simp [onSignal, h1, h2, h3, h4, h5, h6, h7, h8]) hne
  by_cases h9 : (sig.action == "OPEN_LONG" || sig.action == "OPEN_SHORT") = false
  · exact absurd (by simp [onSignal, h1, h2, h3, h4, h5, h6, h7, h8, h9]) hne
  by_cases h10 : env.maxPositions ≤ 1 ∧ sig.action = "OPEN_LONG" ∧ env.posShort > 0
  · exact absurd (by simp [onSignal, h1, h2, h3, h4, h5, h6, h7, h8, h9, h10]) hne
  by_cases h11 : env.maxPositions ≤ 1 ∧ sig.action = "OPEN_SHORT" ∧ env.posLong > 0
  · exact absurd (by simp [onSignal, h1, h2, h3, h4, h5, h6, h7, h8, h9, h10, h11]) hne
  rcases hsz : env.calcSizeByRisk with _ | sz
  · exact absurd
      (by simp [onSignal, h1, h2, h3, h4, h5, h6, h7, h8, h9, h10, h11, hsz]) hne
  by_cases h12 : sz ≤ 0
  · exact absurd
      (by simp [onSignal, h1, h2, h3, h4, h5, h6, h7, h8, h9, h10, h11, hsz, h12]) hne
  by_cases h13 : marginGate env.availUsdt env.leverage env.ctVal env.minAvailUsdt
      env.marginBufferRatio bar sz = false
  · exact absurd
      (by simp [onSignal, h1, h2, h3, h4, h5, h6, h7, h8, h9, h10, h11, hsz, h12, h13])
      hne
  by_cases h14 : env.placeOk = true
  · right
    have hres : (onSignal env kv sig bar).1 = setKV (pendingWrites kv sig.idempotencyKey
        (makeClOrdId sig.idempotencyKey env.nowMs) env.now) "last_trade_ts"
        (.num env.now) := by
      simp [onSignal, h1, h2, h3, h4, h5, h6, h7, h8, h9, h10, h11, hsz, h12, h13, h14]
    rw [hres, lookupKV_setKV_ne _ _ _ _ (pendingKey_ne_lastTradeTs _),
      lookupKV_pendingWrites_pk]
    simp [valTruthy, makeClOrdId_ne_empty]
  · left
    have hres : (onSignal env kv sig bar).1 = setKV (setKV (cleanupPending
        (pendingWrites kv sig.idempotencyKey (makeClOrdId sig.idempotencyKey env.nowMs)
          env.now) sig.idempotencyKey) "last_reject_ts" (.num env.now))
        (doneKey sig.idempotencyKey) (.s "1") := by
      simp [onSignal, h1, h2, h3, h4, h5, h6, h7, h8, h9, h10, h11, hsz, h12, h13, h14]
    rw [hres, lookupKV_setKV_self]
    decide

/-- C2: a signal whose idempotency key is already recorded as done
(`done:<key> = "1"`) or already has a pending marker
(`pending:<key>:clOrdId` holding a client order id) is ignored by
`on_signal`: no order is submitted and the store is unchanged.
Consequently two signals with the same key never produce two submissions —
any first call that submitted leaves either a pending marker (submission
succeeded) or a done marker (submission raised), so a second call with the
same key is a no-op. -/
theorem claim_C2_idempotency (env : SignalEnv) (kv : KV) (sig : Signal) (barClose : ℚ) :
    ((valIsOne (lookupKV kv (doneKey sig.idempotencyKey)) = true ∨
      valTruthy (lookupKV kv (pendingKey sig.idempotencyKey)) = true) →
      onSignal env kv sig barClose = (kv, [])) ∧
    (∀ (env' : SignalEnv) (sig' : Signal) (barClose' : ℚ),
      sig'.idempotencyKey = sig.idempotencyKey →
      (onSignal env kv sig barClose).2 ≠ [] →
      onSignal env' (onSignal env kv sig barClose).1 sig' barClose' =
        ((onSignal env kv sig barClose).1, [])) := by
  constructor
  · exact onSignal_marker_noop env kv sig barClose
  · intro env' sig' bar' hid hne
    have hmark := onSignal_submit_marker env kv sig barClose hne
    exact onSignal_marker_noop env' _ sig' bar' (by rw [hid]; exact hmark)

theorem claim_C2_witness :
    onSignal
      ⟨0, 0, 15, 0, "BTC-USDT-SWAP", "isolated", 1, 0, 0, some 1, 100, 10,
        some 1, 5, 19/20, true⟩
      [("done:k", .s "1")] ⟨"OPEN_LONG", "k", ""⟩ 1
      = ([("done:k", .s "1")], []) :=
  (claim_C2_idempotency _ _ _ _).1 (Or.inl (by decide))

/-! ## C4 -/

theorem afterFill_flag_noop (env : HkEnv) (kv : KV) (idem cl : String)
    (info : OrderInfo) (fsz : Option ℚ)
    (h : valIsOne (lookupKV kv (tpslKey idem)) = true) :
    afterFillSetTpSl env kv idem cl info fsz = (kv, []) := by
  simp [afterFillSetTpSl, h]

theorem afterFill_len_le_one (env : HkEnv) (kv : KV) (idem cl : String)
    (info : OrderInfo) (fsz : Option ℚ) :
    (afterFillSetTpSl env kv idem cl info fsz).2.length ≤ 1 := by
  by_cases a1 : valIsOne (lookupKV kv (tpslKey idem)) = true
  · simp [afterFillSetTpSl, a1]
  by_cases a2 : ((match fsz with | some s => s | none => info.accFillSz) ≤ 0 ∨
      (if info.avgPx ≤ 0 then (if info.lastPx = 0 then info.px else info.lastPx)
        else info.avgPx) ≤ 0)
  · simp [afterFillSetTpSl, a1, a2]
  by_cases a3 : env.algoOk = true
  · simp [afterFillSetTpSl, a1, a2, a3]
  · simp [afterFillSetTpSl, a1, a2, a3]

theorem afterFill_flag_only_on_success (env : HkEnv) (kv : KV) (idem cl : String)
    (info : OrderInfo) (fsz : Option ℚ)
    (h1 : ¬ valIsOne (lookupKV kv (tpslKey idem)) = true)
    (h2 : valIsOne (lookupKV (afterFillSetTpSl env kv idem cl info fsz).1 (tpslKey idem))
      = true) :
    env.algoOk = true ∧ (afterFillSetTpSl env kv idem cl info fsz).2.length = 1 := by
  by_cases a2 : ((match fsz with | some s => s | none => info.accFillSz) ≤ 0 ∨
      (if info.avgPx ≤ 0 then (if info.lastPx = 0 then info.px else info.lastPx)
        else info.avgPx) ≤ 0)
  · exfalso
    rw [show (afterFillSetTpSl env kv idem cl info fsz).1 = kv by
      simp [afterFillSetTpSl, h1, a2]] at h2
    exact h1 h2
  by_cases a3 : env.algoOk = true
  · refine ⟨a3, ?_⟩
    simp [afterFillSetTpSl, h1, a2, a3]
  · exfalso
    rw [show (afterFillSetTpSl env kv idem cl info fsz).1 = kv by
      simp [afterFillSetTpSl, h1, a2, a3]] at h2
    exact h1 h2

theorem lookupKV_cleanupPending_pci (kv : KV) (idem : String) :
    lookupKV (cleanupPending kv idem) "pending_current_idem" = none := by
  simp [cleanupPending, lookupKV_delKV]

theorem housekeep_none_noop (env : HkEnv) (kv : KV)
    (h : lookupKV kv "pending_current_idem" = none) : housekeep env kv = (kv, []) := by
  simp [housekeep, h]

theorem housekeep_calls_le_one (env : HkEnv) (kv : KV) :
    (housekeep env kv).2.length ≤ 1 := by
  rcases hpci : lookupKV kv "pending_current_idem" with _ | v
  · simp [housekeep, hpci]
  rcases v with idem | q
  swap
  · simp [housekeep, hpci]
  by_cases c1 : idem = ""
  · simp [housekeep, hpci, c1]
  by_cases c2 : valIsOne (lookupKV kv (doneKey idem)) = true
  · simp [housekeep, hpci, c1, c2]
  rcases hpk : lookupKV kv (pendingKey idem) with _ | w
  · simp [housekeep, hpci, c1, c2, hpk]
  rcases w with cl | q
  swap
  · simp [housekeep, hpci, c1, c2, hpk]
  by_cases c4 : cl = ""
  · simp [housekeep, hpci, c1, c2, hpk, c4]
  by_cases c5 : (getKVFloat kv (pendingTsKey idem)).getD 0 ≤ 0
  · simp [housekeep, hpci, c1, c2, hpk, c4, c5]
  by_cases c6 : env.now - (getKVFloat kv (pendingTsKey idem)).getD 0 < env.orderTimeoutSec
  · simp [housekeep, hpci, c1, c2, hpk, c4, c5, c6]
  rcases hq : env.queryResult with e | info
  · simp [housekeep, hpci, c1, c2, hpk, c4, c5, c6, hq]
  by_cases c8 : strToLower info.state = "filled" ∨ strToLower info.state = "canceled"
  · by_cases c9 : strToLower info.state = "filled"
    · rw [show (housekeep env kv).2 = (afterFillSetTpSl env kv idem cl info none).2 by
        simp [housekeep, hpci, c1, c2, hpk, c4, c5, c6, hq, c8, c9]]
      exact afterFill_len_le_one env kv idem cl info none
    · have hcanc := c8.resolve_left c9
      simp [housekeep, hpci, c1, c2, hpk, c4, c5, c6, hq, c8, c9, hcanc]
  by_cases c10 : strToLower info.state = "partially_filled"
  · rw [show (housekeep env kv).2
        = (afterFillSetTpSl env kv idem cl info (some info.accFillSz)).2 by
      simp [housekeep, hpci, c1, c2, hpk, c4, c5, c6, hq, c8, c10]]
    exact afterFill_len_le_one env kv idem cl info (some info.accFillSz)
  · simp [housekeep, hpci, c1, c2, hpk, c4, c5, c6, hq, c8, c10]

theorem housekeep_calls_pending_cleared (env : HkEnv) (kv : KV)
    (h : (housekeep env kv).2 ≠ []) :
    lookupKV (housekeep env kv).1 "pending_current_idem" = none := by
  rcases hpci : lookupKV kv "pending_current_idem" with _ | v
  · exact absurd (by simp [housekeep, hpci]) h
  rcases v with idem | q
  swap
  · exact absurd (by simp [housekeep, hpci]) h
  by_cases c1 : idem = ""
  · exact absurd (by simp [housekeep, hpci, c1]) h
  by_cases c2 : valIsOne (lookupKV kv (doneKey idem)) = true
  · exact absurd (by simp [housekeep, hpci, c1, c2]) h
  rcases hpk : lookupKV kv (pendingKey idem) with _ | w
  · exact absurd (by simp [housekeep, hpci, c1, c2, hpk]) h
  rcases w with cl | q
  swap
  · exact absurd (by simp [housekeep, hpci, c1, c2, hpk]) h
  by_cases c4 : cl = ""
  · exact absurd (by simp [housekeep, hpci, c1, c2, hpk, c4]) h
  by_cases c5 : (getKVFloat kv (pendingTsKey idem)).getD 0 ≤ 0
  · exact absurd (by simp [housekeep, hpci, c1, c2, hpk, c4, c5]) h
  by_cases c6 : env.now - (getKVFloat kv (pendingTsKey idem)).getD 0 < env.orderTimeoutSec
  · exact absurd (by simp [housekeep, hpci, c1, c2, hpk, c4, c5, c6]) h
  rcases hq : env.queryResult with e | info
  · exact absurd (by simp [housekeep, hpci, c1, c2, hpk, c4, c5, c6, hq]) h
  by_cases c8 : strToLower info.state = "filled" ∨ strToLower info.state = "canceled"
  · by_cases c9 : strToLower info.state = "filled"
    · rw [show (housekeep env kv).1 = cleanupPending
          (setKV (afterFillSetTpSl env kv idem cl info none).1 (doneKey idem) (.s "1"))
          idem by
        simp [housekeep, hpci, c1, c2, hpk, c4, c5, c6, hq, c8, c9]]
      exact lookupKV_cleanupPending_pci _ _
    · have hcanc := c8.resolve_left c9
      rw [show (housekeep env kv).1 = cleanupPending
          (setKV kv (doneKey idem) (.s "1")) idem by
        simp [housekeep, hpci, c1, c2, hpk, c4, c5, c6, hq, c8, c9, hcanc]]
      exact lookupKV_cleanupPending_pci _ _
  by_cases c10 : strToLower info.state = "partially_filled"
  · rw [show (housekeep env kv).1 = cleanupPending
        (setKV (afterFillSetTpSl env kv idem cl info (some info.accFillSz)).1
          (doneKey idem) (.s "1")) idem by
      simp [housekeep, hpci, c1, c2, hpk, c4, c5, c6, hq, c8, c10]]
    exact lookupKV_cleanupPending_pci _ _
  · exact absurd (by simp [housekeep, hpci, c1, c2, hpk, c4, c5, c6, hq, c8, c10]) h

theorem housekeepTrace_none (idem : String) (envs : List HkEnv) (kv : KV)
    (h : lookupKV kv "pending_current_idem" = none) :
    housekeepTrace idem envs kv = (kv, 0) := by
  induction envs with
  | nil => rfl
  | cons e rest ih =>
    simp [housekeepTrace, housekeepIdem, housekeep_none_noop e kv h, h, ih]

theorem housekeepTrace_le_one (idem : String) (envs : List HkEnv) (kv : KV) :
    (housekeepTrace idem envs kv).2 ≤ 1 := by
  induction envs generalizing kv with
  | nil => simp [housekeepTrace]
  | cons e rest ih =>
    by_cases hpci : lookupKV kv "pending_current_idem" = some (.s idem)
    · by_cases hcall : (housekeep e kv).2 = []
      · have h0 : (housekeep e kv).2.length = 0 := by rw [hcall]; rfl
        simp only [housekeepTrace, housekeepIdem, hpci, if_pos rfl, h0]
        simpa using ih (housekeep e kv).1
      · have h2 := housekeep_calls_pending_cleared e kv hcall
        have h3 := housekeepTrace_none idem rest (housekeep e kv).1 h2
        simp only [housekeepTrace, housekeepIdem, hpci, if_pos rfl, h3]
        simpa using housekeep_calls_le_one e kv
    · simp only [housekeepTrace, housekeepIdem, hpci, if_neg, ite_false]
      simpa using ih (housekeep e kv).1

theorem lookupKV_cleanupPending_ne (kv : KV) (idem k : String)
    (h1 : k ≠ "pending_current_idem") (h2 : k ≠ pendingKey idem)
    (h3 : k ≠ pendingTsKey idem) :
    lookupKV (cleanupPending kv idem) k = lookupKV kv k := by
  simp [cleanupPending, lookupKV_delKV, h1, h2, h3]

theorem housekeep_filled_once (env : HkEnv) (kv : KV) (idem cl : String)
    (info : OrderInfo) (ts : ℚ)
    (hpci : lookupKV kv "pending_current_idem" = some (.s idem)) (hidem : idem ≠ "")
    (hdone : ¬ valIsOne (lookupKV kv (doneKey idem)) = true)
    (hpk : lookupKV kv (pendingKey idem) = some (.s cl)) (hcl : cl ≠ "")
    (hts : getKVFloat kv (pendingTsKey idem) = some ts) (hts0 : 0 < ts)
    (htimeout : ¬ env.now - ts < env.orderTimeoutSec)
    (hq : env.queryResult = .ok info) (hstate : strToLower info.state = "filled")
    (hflag : ¬ valIsOne (lookupKV kv (tpslKey idem)) = true)
    (hfill : 0 < info.accFillSz) (havg : 0 < info.avgPx) (halgo : env.algoOk = true) :
    (housekeep env kv).2.length = 1 ∧
    valIsOne (lookupKV (housekeep env kv).1 (doneKey idem)) = true ∧
    valIsOne (lookupKV (housekeep env kv).1 (tpslKey idem)) = true ∧
    lookupKV (housekeep env kv).1 "pending_current_idem" = none := by
  have hsz' : ¬ (info.accFillSz ≤ 0) := not_le.mpr hfill
  have havg' : ¬ (info.avgPx ≤ 0) := not_le.mpr havg
  have hafter1 : (afterFillSetTpSl env kv idem cl info none).1
      = setKV kv (tpslKey idem) (.s "1") := by
    simp [afterFillSetTpSl, hflag, hsz', havg', halgo]
  have hafter2 : (afterFillSetTpSl env kv idem cl info none).2.length = 1 := by
    simp [afterFillSetTpSl, hflag, hsz', havg', halgo]
  have hts' : ¬ (getKVFloat kv (pendingTsKey idem)).getD 0 ≤ 0 := by
    rw [hts]
    simpa using hts0
  have htime : ¬ env.now - (getKVFloat kv (pendingTsKey idem)).getD 0
      < env.orderTimeoutSec := by
    rw [hts]
    simpa using htimeout
  have hres : housekeep env kv = (cleanupPending
      (setKV (afterFillSetTpSl env kv idem cl info none).1 (doneKey idem) (.s "1")) idem,
      (afterFillSetTpSl env kv idem cl info none).2) := by
    simp [housekeep, hpci, hidem, hdone, hpk, hcl, hts', htime, hq, hstate]
  refine ⟨?_, ?_, ?_, ?_⟩
  · rw [hres]
    exact hafter2
  · rw [hres]
    show valIsOne (lookupKV (cleanupPending _ idem) (doneKey idem)) = true
    rw [lookupKV_cleanupPending_ne _ _ _ (doneKey_ne_pci idem)
      (doneKey_ne_pendingKey idem) (doneKey_ne_pendingTsKey idem), lookupKV_setKV_self]
    decide
  · rw [hres]
    show valIsOne (lookupKV (cleanupPending _ idem) (tpslKey idem)) = true
    rw [lookupKV_cleanupPending_ne _ _ _ (tpslKey_ne_pci idem)
      (tpslKey_ne_pendingKey idem) (tpslKey_ne_pendingTsKey idem),
      lookupKV_setKV_ne _ _ _ _ (tpslKey_ne_doneKey idem), hafter1, lookupKV_setKV_self]
    decide
  · rw [hres]
    exact lookupKV_cleanupPending_pci _ _

/-- C4: for every idempotency key, across any sequence of housekeeping
passes the conditional TP/SL order call (`place_tp_sl_algo`) is issued at
most once; once the one-shot flag `tp_sl_set:<key>` is `"1"`,
`_after_fill_set_tp_sl` is a no-op; the flag becomes `"1"` only when the
conditional order call was issued and succeeded; and a timed-out pending
order reported `filled` issues exactly one TP/SL call, marks the key done,
sets the flag and clears the pending marker (so no later pass can call
again). -/
theorem claim_C4_tp_sl_once (idem : String) (envs : List HkEnv) (kv : KV) :
    (housekeepTrace idem envs kv).2 ≤ 1 ∧
    (∀ (env : HkEnv) (cl : String) (info : OrderInfo) (fsz : Option ℚ),
      valIsOne (lookupKV kv (tpslKey idem)) = true →
      afterFillSetTpSl env kv idem cl info fsz = (kv, [])) ∧
    (∀ (env : HkEnv) (cl : String) (info : OrderInfo) (fsz : Option ℚ),
      ¬ valIsOne (lookupKV kv (tpslKey idem)) = true →
      valIsOne (lookupKV (afterFillSetTpSl env kv idem cl info fsz).1 (tpslKey idem))
        = true →
      env.algoOk = true ∧ (afterFillSetTpSl env kv idem cl info fsz).2.length = 1) ∧
    (∀ (env : HkEnv) (cl : String) (info : OrderInfo) (ts : ℚ),
      lookupKV kv "pending_current_idem" = some (.s idem) → idem ≠ "" →
      ¬ valIsOne (lookupKV kv (doneKey idem)) = true →
      lookupKV kv (pendingKey idem) = some (.s cl) → cl ≠ "" →
      getKVFloat kv (pendingTsKey idem) = some ts → 0 < ts →
      ¬ env.now - ts < env.orderTimeoutSec →
      env.queryResult = .ok info → strToLower info.state = "filled" →
      ¬ valIsOne (lookupKV kv (tpslKey idem)) = true →
      0 < info.accFillSz → 0 < info.avgPx → env.algoOk = true →
      (housekeep env kv).2.length = 1 ∧
      valIsOne (lookupKV (housekeep env kv).1 (doneKey idem)) = true ∧
      valIsOne (lookupKV (housekeep env kv).1 (tpslKey idem)) = true ∧
      lookupKV (housekeep env kv).1 "pending_current_idem" = none) := by
  refine ⟨housekeepTrace_le_one idem envs kv, ?_, ?_, ?_⟩
  · intro env cl info fsz h
    exact afterFill_flag_noop env kv idem cl info fsz h
  · intro env cl info fsz h1 h2
    exact afterFill_flag_only_on_success env kv idem cl info fsz h1 h2
  · intro env cl info ts hpci hidem hdone hpk hcl hts hts0 htimeout hq hstate hflag
      hfill havg halgo
    exact housekeep_filled_once env kv idem cl info ts hpci hidem hdone hpk hcl hts
      hts0 htimeout hq hstate hflag hfill havg halgo

theorem claim_C4_witness :
    afterFillSetTpSl
      ⟨0, 60, true, "BTC-USDT-SWAP", "isolated", 1/100, 1/100,
        .ok ⟨"filled", 1, 100, 0, 0, "long", "buy"⟩, true⟩
      [("tp_sl_set:k", .s "1")] "k" "c" ⟨"filled", 1, 100, 0, 0, "long", "buy"⟩ none
      = ([("tp_sl_set:k", .s "1")], []) :=
  (claim_C4_tp_sl_once "k" [] [("tp_sl_set:k", .s "1")]).2.1 _ "c" _ none (by decide)
